import Mathlib

/-!
Verification of the retrieval/embedding core and provider-fallback chain of the
LexChat legal-document assistant.  The definitions below are a shallow embedding
of `src/app/api/chat/route.ts` (cosine similarity, word-hash embedding, passage
retrieval, chat provider chain) and of the summarization provider chain with its
local fallback summary.  Strings are modelled as lists of characters, JavaScript
numbers on the similarity path as exact reals/rationals, and the 32-bit signed
overflow of the string hash is modelled explicitly.
-/

namespace LexChat

/-- Strings of the TypeScript source, modelled as lists of characters. -/
abbrev Str := List Char

/-- The `\w` character class of JavaScript regexes: ASCII letters, digits, underscore. -/
def isWordChar (c : Char) : Bool := c.isAlpha || c.isDigit || c = '_'

/-- Sentence terminator characters of the `/[.!?]+/` regex. -/
def isTermChar (c : Char) : Bool := c = '.' || c = '!' || c = '?'

/-- Whitespace as used by `trim` and the `/\s+/` regex (ASCII model). -/
def isWS (c : Char) : Bool := c.isWhitespace

mutual

/-- JavaScript-style `split` on maximal runs of separator characters `p`:
`splitField p acc l` accumulates the current field (reversed) in `acc`. -/
def splitField (p : Char → Bool) (acc : Str) : Str → List Str
  | [] => [acc.reverse]
  | c :: cs => if p c then acc.reverse :: splitSep p cs else splitField p (c :: acc) cs

/-- State of `split` inside a separator run: further separator characters extend the
run, the end of input yields a final empty field, anything else opens a new field. -/
def splitSep (p : Char → Bool) : Str → List Str
  | [] => [[]]
  | c :: cs => if p c then splitSep p cs else splitField p [c] cs

end

/-- JavaScript `l.split(re)` where `re` matches maximal nonempty runs of characters
satisfying `p` (such as `/[.!?]+/` or `/\s+/`). -/
def jsSplit (p : Char → Bool) (l : Str) : List Str := splitField p [] l

/-- JavaScript `String.prototype.trim`: strip whitespace from both ends. -/
def trimChars (l : Str) : Str := ((l.dropWhile isWS).reverse.dropWhile isWS).reverse

mutual

/-- Word tokenization of `text.match(/\b\w+\b/g)`: the maximal runs of word
characters, in order.  `tokOut` scans outside a word. -/
def tokOut : Str → List Str
  | [] => []
  | c :: cs => if isWordChar c then tokIn [c] cs else tokOut cs

/-- Scanning state inside a word whose characters so far are `acc`, reversed. -/
def tokIn (acc : Str) : Str → List Str
  | [] => [acc.reverse]
  | c :: cs => if isWordChar c then tokIn (c :: acc) cs else acc.reverse :: tokOut cs

end

/-- All word tokens of a string (`/\b\w+\b/g` matches, i.e. maximal word-char runs). -/
def tokenize (l : Str) : List Str := tokOut l

/-- JavaScript `String.prototype.toLowerCase`, ASCII model. -/
def jsToLower (l : Str) : Str := l.map Char.toLower

/-- Wrap an integer to the two's-complement 32-bit range, as JavaScript bitwise
operators do. -/
def int32 (n : ℤ) : ℤ := (n + 2 ^ 31) % 2 ^ 32 - 2 ^ 31

/-- One step of the hash loop `a = (a << 5) - a + b.charCodeAt(0); return a & a`:
the shift wraps to 32 bits, and `a & a` wraps the final sum to 32 bits. -/
def hashStep (a : ℤ) (c : Char) : ℤ := int32 (int32 (a * 32) - a + c.toNat)

/-- The word hash `word.split("").reduce(..., 0)` of `createSimpleEmbedding`. -/
def jsHash (w : Str) : ℤ := w.foldl hashStep 0

/-- The hash as the specification words it: `hash = hash * 31 + charCode`, wrapped to
two's-complement 32 bits at each step. -/
def specHash (w : Str) : ℤ := w.foldl (fun a c => int32 (a * 31 + c.toNat)) 0

/-- Bucket index `Math.abs(hash) % 100`. -/
def bucket (w : Str) : ℕ := (jsHash w).natAbs % 100

/-- Record one occurrence of `w` in the word-frequency table (association list in
first-occurrence order). -/
def bump (w : Str) : List (Str × ℕ) → List (Str × ℕ)
  | [] => [(w, 1)]
  | (x, n) :: xs => if x = w then (x, n + 1) :: xs else (x, n) :: bump w xs

/-- The `wordFreq` table of `createSimpleEmbedding`.  The bucket vector accumulated
from it is independent of the order of its entries, so the JavaScript object key
order is immaterial. -/
def wordFreq (ws : List Str) : List (Str × ℕ) := ws.foldl (fun acc w => bump w acc) []

/-- `createSimpleEmbedding` from `src/app/api/chat/route.ts`: lower-case the text,
tokenize into word runs, build word frequencies, and add each word's frequency into
the hash bucket of that word in a 100-slot vector. -/
def createSimpleEmbedding (text : Str) : List ℕ :=
  let words := tokenize (jsToLower text)
  (wordFreq words).foldl
    (fun v wf => v.set (bucket wf.1) (v.getD (bucket wf.1) 0 + wf.2))
    (List.replicate 100 0)

/-- The dot product `a.reduce((sum, val, i) => sum + val * b[i], 0)`. -/
def dotP (a b : List ℕ) : ℕ := (List.zipWith (fun x y => x * y) a b).sum

/-- Sum of squared components: the square of the vector magnitude. -/
def sumSq (a : List ℕ) : ℕ := dotP a a

/-- `cosineSimilarity` from the source, over the reals: the dot product divided by
the product of the magnitudes, with the guard returning 0 when either magnitude is 0
(a real square root is 0 exactly when the sum of squares is 0). -/
noncomputable def cosineSimilarity (a b : List ℕ) : ℝ :=
  if sumSq a = 0 ∨ sumSq b = 0 then 0
  else (dotP a b : ℝ) / (Real.sqrt (sumSq a) * Real.sqrt (sumSq b))

/-- Exact similarity key of a candidate passage against the query embedding `q`:
the dot product with the query and the passage's sum of squares.  The pair encodes
the (irrational) cosine similarity exactly for the purpose of comparisons. -/
def simKey (q e : List ℕ) : ℕ × ℕ := (dotP q e, sumSq e)

/-- Decides whether the cosine similarity encoded by key `k₁ = (d₁, S₁)` is at most
the one encoded by `k₂ = (d₂, S₂)`.  A key with zero dot product or zero magnitude
encodes similarity 0; otherwise `d₁/√S₁ ≤ d₂/√S₂ ↔ d₁² S₂ ≤ d₂² S₁`.  The theorem
`cosineSimilarity_le_iff_simLE` shows that for keys produced by `simKey` this is
exactly the comparison of the real-valued `cosineSimilarity`, so sorting by it is
sorting by similarity. -/
def simLE (k₁ k₂ : ℕ × ℕ) : Bool :=
  if k₁.1 = 0 ∨ k₁.2 = 0 then true
  else if k₂.1 = 0 ∨ k₂.2 = 0 then false
  else decide (k₁.1 ^ 2 * k₂.2 ≤ k₂.1 ^ 2 * k₁.2)

/-- The `sentences` local of `findRelevantPassages`:
`documentText.split(/[.!?]+/).filter((s) => s.trim().length > 30)`. -/
def sentencesFiltered (documentText : Str) : List Str :=
  (jsSplit isTermChar documentText).filter (fun s => decide (30 < (trimChars s).length))

/-- `findRelevantPassages` from the source: embed the query, split and filter the
document into candidate sentences, fall back to the first 1000 characters when no
sentence qualifies, otherwise rank the sentences by cosine similarity to the query
(descending, stable sort as JavaScript `Array.prototype.sort`) and return the top
`topK` trimmed sentences. -/
def findRelevantPassages (query documentText : Str) (topK : ℕ := 5) : List Str :=
  let queryEmbedding := createSimpleEmbedding query
  let sentences := sentencesFiltered documentText
  if sentences = [] then [documentText.take 1000]
  else
    let similarities := sentences.map
      (fun s => (trimChars s, simKey queryEmbedding (createSimpleEmbedding s)))
    ((similarities.mergeSort (fun x y => simLE y.2 x.2)).take topK).map
      (fun p => p.1)

/-- Names of the remote providers of the fallback chain, in priority order. -/
inductive Provider
  | gemini
  | openrouter
  deriving DecidableEq

/-- An extracted legal entity: the matched text and its category label. -/
structure Entity where
  text : Str
  label : Str

/-- One request's configuration and fate of the provider chain: which credentials
are present, and what each remote call would yield for a given prompt (`none`
models every failure the code treats alike: network error, non-2xx status, or a
payload without extractable text).  `extractEntities` stands for the out-of-scope
entity-extraction collaborator used by the local fallback summary. -/
structure Env where
  geminiKey : Option Str
  openrouterKey : Option Str
  geminiCall : Str → Option Str
  openrouterCall : Str → Option Str
  extractEntities : Str → List Entity

/-- Instructions of the Gemini summarization prompt, up to the interpolated text. -/
def geminiSummaryInstructions : Str :=
  ("You are an expert legal document analyst. Provide comprehensive, professional summaries of legal documents that include:\n\n1. Document Type & Purpose\n2. Key Parties Involved\n3. Main Terms & Conditions\n4. Important Dates & Deadlines\n5. Financial Obligations\n6. Legal Implications\n7. Risk Factors\n\nStructure your response clearly and use professional legal terminology.\n\nPlease provide a comprehensive executive summary of this legal document:\n\n").data

/-- The prompt sent to Gemini on the summarization path: instructions followed by
`text.substring(0, 6000)`. -/
def geminiSummaryPrompt (text : Str) : Str :=
  geminiSummaryInstructions ++ text.take 6000

/-- The user message sent to OpenRouter on the summarization path (its fixed system
message precedes it; the document-derived part is again `text.substring(0, 6000)`). -/
def openrouterSummaryPrompt (text : Str) : Str :=
  ("Please provide a comprehensive executive summary of this legal document:\n\n").data
    ++ text.take 6000

/-- The prompt sent to Gemini on the chat path: instructions, the assembled document
context (not truncated), and the user question. -/
def chatPromptGemini (message context : Str) : Str :=
  ("You are LexChat, an expert legal assistant AI specializing in document analysis. You provide precise, professional, and insightful answers about legal documents.\n\nINSTRUCTIONS:\n- Answer questions based ONLY on the provided document context\n- Be concise but comprehensive in your responses\n- Use professional legal terminology when appropriate\n- If information isn't in the document, clearly state this\n- Provide specific references to document sections when possible\n- Highlight key legal implications and considerations\n- Structure your responses clearly with bullet points or numbered lists when helpful\n\nDOCUMENT CONTEXT:\n").data
    ++ context
    ++ ("\n\nUSER QUESTION: ").data
    ++ message
    ++ ("\n\nPlease provide a detailed, professional response based on the document context above.").data

/-- The two chat messages sent to OpenRouter (system content, then the user message),
concatenated in order; the document context is embedded untruncated. -/
def chatPromptOpenrouter (message context : Str) : Str :=
  ("You are an expert legal assistant AI. Answer questions about the provided legal document accurately and professionally.\n\nDocument Context:\n").data
    ++ context
    ++ ("\n\n").data
    ++ message

/-- The response returned by the chat path when `GEMINI_API_KEY` is absent: a fixed
message embedding the question and the first 500 characters of the context. -/
def chatNoKeyFallback (message context : Str) : Str :=
  ("Based on the document context, I can see information related to your question about \"").data
    ++ message
    ++ ("\". However, the AI service is not configured. Please set up your GEMINI_API_KEY in the .env file to get detailed AI-powered responses.\n\nHere's the relevant context from the document:\n").data
    ++ context.take 500
    ++ ("...").data

/-- The context-dump response returned by the chat path when every remote provider
has failed. -/
def chatExhaustedFallback (message context : Str) : Str :=
  ("Based on your question about \"").data
    ++ message
    ++ ("\", here's what I found in the document:\n\n").data
    ++ context
    ++ ("\n\nNote: AI services are currently unavailable. This is a basic context-based response. For detailed AI analysis, please configure your API keys in the .env file.").data

/-- Decimal rendering of a number interpolated into a template string. -/
def natStr (n : ℕ) : Str := (Nat.repr n).data

/-- Texts of the entities carrying a given label. -/
def entityTexts (entities : List Entity) (label : Str) : List Str :=
  (entities.filter (fun e => decide (e.label = label))).map (fun e => e.text)

/-- An optional section of the basic summary: rendered only when examples exist
(`slice(0, 5).join(", ")` of the matching entity texts). -/
def summarySection (title : Str) (items : List Str) : Str :=
  if items = [] then []
  else title ++ List.intercalate ((", ").data) (items.take 5) ++ ("\n\n").data

/-- Everything the basic summary appends after its fixed header line. -/
def basicSummaryBody (extract : Str → List Entity) (text : Str) : Str :=
  let words := jsSplit isWS text
  let sentences :=
    (jsSplit isTermChar text).filter (fun s => decide (10 < (trimChars s).length))
  let entities := extract text
  ("Document Length: ").data ++ natStr words.length ++ (" words, ").data
    ++ natStr sentences.length ++ (" sentences\n\n").data
    ++ summarySection (("Key Individuals: ").data)
        (entityTexts entities (("PERSON").data))
    ++ summarySection (("Organizations: ").data)
        (entityTexts entities (("ORGANIZATION").data))
    ++ summarySection (("Important Dates: ").data)
        (entityTexts entities (("DATE").data))
    ++ summarySection (("Financial Amounts: ").data)
        (entityTexts entities (("MONEY").data))
    ++ ("Content Preview: ").data
    ++ (List.intercalate ((". ").data) (sentences.take 3)).take 500
    ++ ("...").data

/-- `generateBasicSummary`: the local, deterministic fallback summary built from the
raw text and the extracted entities, without any remote call: the fixed header
followed by the assembled body (`summary = "DOCUMENT ANALYSIS SUMMARY\n\n"` and then
`summary += ...` in the source).  The entity extractor is a parameter because the
regex catalog is an external collaborator. -/
def generateBasicSummary (extract : Str → List Entity) (text : Str) : Str :=
  ("DOCUMENT ANALYSIS SUMMARY\n\n").data ++ basicSummaryBody extract text

/-- `generateSummary`: the provider chain of the summarization path.  Returns the
summary together with the ordered list of remote attempts (provider, prompt sent).
When `GEMINI_API_KEY` is absent the function returns the local basic summary at
once; OpenRouter is consulted only after a failed Gemini attempt. -/
def generateSummary (env : Env) (text : Str) : Str × List (Provider × Str) :=
  match env.geminiKey with
  | none => (generateBasicSummary env.extractEntities text, [])
  | some _ =>
    match env.geminiCall (geminiSummaryPrompt text) with
    | some summary => (summary, [(Provider.gemini, geminiSummaryPrompt text)])
    | none =>
      match env.openrouterKey with
      | none =>
        (generateBasicSummary env.extractEntities text,
          [(Provider.gemini, geminiSummaryPrompt text)])
      | some _ =>
        match env.openrouterCall (openrouterSummaryPrompt text) with
        | some summary =>
          (summary,
            [(Provider.gemini, geminiSummaryPrompt text),
              (Provider.openrouter, openrouterSummaryPrompt text)])
        | none =>
          (generateBasicSummary env.extractEntities text,
            [(Provider.gemini, geminiSummaryPrompt text),
              (Provider.openrouter, openrouterSummaryPrompt text)])

/-- The document context assembled for the chat path: the top relevant passages
joined with blank lines (`relevantPassages.join("\n\n")`), with the default
`topK = 5`. -/
def chatContext (message documentText : Str) : Str :=
  List.intercalate (("\n\n").data) (findRelevantPassages message documentText 5)

/-- `generateChatResponse`: the provider chain of the chat path.  The context is
assembled before the credential check; when `GEMINI_API_KEY` is absent the fixed
no-key response is returned at once, and when every remote attempt fails the
context-dump response is returned. -/
def generateChatResponse (env : Env) (message documentText : Str) :
    Str × List (Provider × Str) :=
  match env.geminiKey with
  | none => (chatNoKeyFallback message (chatContext message documentText), [])
  | some _ =>
    match env.geminiCall (chatPromptGemini message (chatContext message documentText)) with
    | some response =>
      (response,
        [(Provider.gemini, chatPromptGemini message (chatContext message documentText))])
    | none =>
      match env.openrouterKey with
      | none =>
        (chatExhaustedFallback message (chatContext message documentText),
          [(Provider.gemini, chatPromptGemini message (chatContext message documentText))])
      | some _ =>
        match env.openrouterCall
            (chatPromptOpenrouter message (chatContext message documentText)) with
        | some response =>
          (response,
            [(Provider.gemini, chatPromptGemini message (chatContext message documentText)),
              (Provider.openrouter,
                chatPromptOpenrouter message (chatContext message documentText))])
        | none =>
          (chatExhaustedFallback message (chatContext message documentText),
            [(Provider.gemini, chatPromptGemini message (chatContext message documentText)),
              (Provider.openrouter,
                chatPromptOpenrouter message (chatContext message documentText))])

/-! ### Arithmetic of the 32-bit hash -/

theorem int32_congr {x y : ℤ} (h : x % 2 ^ 32 = y % 2 ^ 32) : int32 x = int32 y := by
  unfold int32
  omega

theorem int32_emod_self (x : ℤ) : int32 x % 2 ^ 32 = x % 2 ^ 32 := by
  unfold int32
  omega

theorem hashStep_eq (a : ℤ) (c : Char) : hashStep a c = int32 (a * 31 + c.toNat) := by
  unfold hashStep
  apply int32_congr
  have h := int32_emod_self (a * 32)
  omega

theorem foldl_hashStep_eq (l : Str) :
    ∀ a : ℤ, l.foldl hashStep a = l.foldl (fun a c => int32 (a * 31 + c.toNat)) a := by
  induction l with
  | nil => intro a; rfl
  | cons c cs ih => intro a; rw [List.foldl_cons, List.foldl_cons, hashStep_eq, ih]

theorem jsHash_eq_specHash (w : Str) : jsHash w = specHash w :=
  foldl_hashStep_eq w 0

/-! ### Sum of the embedding vector -/

theorem sum_set_getD (v : List ℕ) (i f : ℕ) (h : i < v.length) :
    (v.set i (v.getD i 0 + f)).sum = v.sum + f := by
  induction v generalizing i with
  | nil => simp at h
  | cons x xs ih =>
    cases i with
    | zero =>
      simp only [List.set_cons_zero, List.getD_cons_zero, List.sum_cons]
      omega
    | succ n =>
      have hn : n < xs.length := by simpa using h
      have hx := ih n hn
      simp only [List.set_cons_succ, List.getD_cons_succ, List.sum_cons]
      omega

theorem length_embed_foldl (freq : List (Str × ℕ)) (v : List ℕ) :
    (freq.foldl
      (fun v wf => v.set (bucket wf.1) (v.getD (bucket wf.1) 0 + wf.2)) v).length
      = v.length := by
  induction freq generalizing v with
  | nil => rfl
  | cons wf fs ih =>
    rw [List.foldl_cons, ih]
    exact List.length_set v _ _

theorem sum_embed_foldl (freq : List (Str × ℕ)) (v : List ℕ) (hv : v.length = 100) :
    (freq.foldl
      (fun v wf => v.set (bucket wf.1) (v.getD (bucket wf.1) 0 + wf.2)) v).sum
      = v.sum + (freq.map Prod.snd).sum := by
  induction freq generalizing v with
  | nil => simp
  | cons wf fs ih =>
    have hb : bucket wf.1 < v.length := by
      rw [hv]; exact Nat.mod_lt _ (by norm_num)
    rw [List.foldl_cons, ih _ (by rw [List.length_set, hv]),
      sum_set_getD v _ _ hb]
    simp only [List.map_cons, List.sum_cons]
    omega

theorem sum_bump (w : Str) (acc : List (Str × ℕ)) :
    ((bump w acc).map Prod.snd).sum = (acc.map Prod.snd).sum + 1 := by
  induction acc with
  | nil => simp [bump]
  | cons p ps ih =>
    obtain ⟨x, n⟩ := p
    by_cases hx : x = w
    · simp [bump, hx]
      omega
    · simp [bump, hx, ih]
      omega

theorem sum_wordFreq_foldl (ws : List Str) (acc : List (Str × ℕ)) :
    ((ws.foldl (fun acc w => bump w acc) acc).map Prod.snd).sum
      = (acc.map Prod.snd).sum + ws.length := by
  induction ws generalizing acc with
  | nil => simp
  | cons w ws ih => simp [List.foldl_cons, ih, sum_bump]; omega

theorem sum_wordFreq (ws : List Str) :
    ((wordFreq ws).map Prod.snd).sum = ws.length := by
  simpa using sum_wordFreq_foldl ws []

/-- C10: the sum of the 100 components of `createSimpleEmbedding s` is the number of
word tokens of the lowercased `s`, every component is a non-negative integer, the
vector has 100 slots, and token-free input yields the all-zero vector. -/
theorem claim_C10 (s : Str) :
    (createSimpleEmbedding s).sum = (tokenize (jsToLower s)).length ∧
    (createSimpleEmbedding s).length = 100 ∧
    (∀ x ∈ createSimpleEmbedding s, 0 ≤ x) ∧
    (tokenize (jsToLower s) = [] → createSimpleEmbedding s = List.replicate 100 0) := by
  refine ⟨?_, ?_, fun x _ => Nat.zero_le x, ?_⟩
  · rw [createSimpleEmbedding,
      sum_embed_foldl _ _ (by simp), sum_wordFreq]
    simp
  · rw [createSimpleEmbedding, length_embed_foldl]
    simp
  · intro h
    rw [createSimpleEmbedding, h]
    rfl

/-- Witness for C10 at the empty string: no tokens, hence the all-zero vector. -/
theorem claim_C10_witness :
    createSimpleEmbedding (("").data) = List.replicate 100 0 :=
  (claim_C10 (("").data)).2.2.2 (by decide)

/-- C9: `embed("Apple Apple Banana")` has exactly two non-zero buckets, the bucket of
"apple" (value 2) and the distinct bucket of "banana" (value 1), where the hash of a
word is the polynomial hash `hash = hash * 31 + charCode` wrapped to two's-complement
32 bits at every step and the bucket is `abs(hash) % 100`. -/
theorem claim_C9 :
    (∀ w : Str, jsHash w = specHash w) ∧
    bucket (("apple").data) ≠ bucket (("banana").data) ∧
    (createSimpleEmbedding (("Apple Apple Banana").data)).getD
      (bucket (("apple").data)) 0 = 2 ∧
    (createSimpleEmbedding (("Apple Apple Banana").data)).getD
      (bucket (("banana").data)) 0 = 1 ∧
    (∀ j : ℕ, j < 100 → j ≠ bucket (("apple").data) → j ≠ bucket (("banana").data) →
      (createSimpleEmbedding (("Apple Apple Banana").data)).getD j 0 = 0) := by
  refine ⟨jsHash_eq_specHash, by decide, by decide, by decide, by decide⟩

/-! ### Concrete environments and documents used in concrete instances -/

/-- An entity extractor returning no entities, for concrete instances. -/
def noEntities : Str → List Entity := fun _ => []

/-- Environment with no credentials at all: every provider is unconfigured. -/
def envNone : Env := ⟨none, none, fun _ => none, fun _ => none, noEntities⟩

/-- Environment with no Gemini credential but a configured OpenRouter provider that
would answer every prompt with the given text. -/
def envOnlyOpenrouter (t : Str) : Env :=
  ⟨none, some (("sk-or-key").data), fun _ => none, fun _ => some t, noEntities⟩

/-- Environment where Gemini is configured and every Gemini call succeeds with the
given text. -/
def envGeminiOk (t : Str) : Env :=
  ⟨some (("gk").data), none, fun _ => some t, fun _ => none, noEntities⟩

/-- The document of the specification's Scenario B. -/
def scenarioBDoc : Str :=
  ("John Smith signed the agreement. Payment of $500 is due January 1, 2024. The warranty expires after one year.").data

/-- A 49-character sentence with no terminator: its whole text is the only
qualifying passage. -/
def longSentence : Str := ("Lorem ipsum dolor sit amet consectetur adipiscing").data

/-- Whether `pat` occurs as a contiguous substring of `l`. -/
def containsSub (pat l : Str) : Bool :=
  (List.range (l.length + 1)).any (fun i => decide ((l.drop i).take pat.length = pat))

/-! ### C5: the passage length filter -/

/-- C5 as amended: the selector keeps exactly the sentence-split fragments whose
trimmed length is strictly greater than 30 characters; a fragment of trimmed length
exactly 30 is discarded. -/
theorem claim_C5 (doc s : Str) :
    s ∈ sentencesFiltered doc ↔
      s ∈ jsSplit isTermChar doc ∧ 30 < (trimChars s).length := by
  unfold sentencesFiltered
  rw [List.mem_filter]
  simp

/-- Witness for C5: a 49-character fragment is kept. -/
theorem claim_C5_witness :
    longSentence ∈ sentencesFiltered (longSentence ++ [Char.ofNat 46]) :=
  (claim_C5 (longSentence ++ [Char.ofNat 46]) longSentence).mpr (by decide)

/-- Counterexample to C5 as stated: a fragment whose trimmed length is exactly 30 is
in the sentence split but is not kept (the filter is strict). -/
theorem claim_C5_counterexample :
    (trimChars (("abcdefghij abcdefghij abcdefgh").data)).length = 30 ∧
    (("abcdefghij abcdefghij abcdefgh").data) ∈
      jsSplit isTermChar (("abcdefghij abcdefghij abcdefgh.").data) ∧
    (("abcdefghij abcdefghij abcdefgh").data) ∉
      sentencesFiltered (("abcdefghij abcdefghij abcdefgh.").data) := by
  refine ⟨by decide, by decide, by decide⟩

/-! ### C8: local fallback summary when no credentials are present -/

/-- C8: with all provider credentials absent the summarization path performs no
remote attempt and returns the deterministic basic summary, which begins with the
literal header `DOCUMENT ANALYSIS SUMMARY`. -/
theorem claim_C8 (env : Env) (text : Str) (hg : env.geminiKey = none)
    (_ho : env.openrouterKey = none) :
    (generateSummary env text).1 = generateBasicSummary env.extractEntities text ∧
    (generateSummary env text).2 = [] ∧
    (generateSummary env text).1.take 25 = ("DOCUMENT ANALYSIS SUMMARY").data := by
  have h1 : generateSummary env text =
      (generateBasicSummary env.extractEntities text, []) := by
    unfold generateSummary
    rw [hg]
  refine ⟨by rw [h1], by rw [h1], ?_⟩
  rw [h1]
  show (generateBasicSummary env.extractEntities text).take 25 = _
  unfold generateBasicSummary
  rw [List.take_append_of_le_length (by decide)]
  decide

/-- Witness for C8 in the credential-free environment. -/
theorem claim_C8_witness :
    (generateSummary envNone (("x").data)).1.take 25
      = ("DOCUMENT ANALYSIS SUMMARY").data :=
  (claim_C8 envNone (("x").data) rfl rfl).2.2

/-! ### C1: behaviour of the chain when the first credential is absent -/

/-- C1 as amended: when `GEMINI_API_KEY` is absent, no remote provider is attempted
and both paths return their local fallback immediately; OpenRouter is attempted
(after Gemini) exactly when the Gemini key is present, the Gemini call fails, and
the OpenRouter key is present. -/
theorem claim_C1 (env : Env) (text message doc : Str) :
    (env.geminiKey = none →
      (generateSummary env text).2 = [] ∧
      (generateSummary env text).1 = generateBasicSummary env.extractEntities text ∧
      (generateChatResponse env message doc).2 = [] ∧
      (generateChatResponse env message doc).1 =
        chatNoKeyFallback message (chatContext message doc)) ∧
    (env.geminiKey ≠ none → env.openrouterKey ≠ none →
      env.geminiCall (geminiSummaryPrompt text) = none →
      ((generateSummary env text).2.map Prod.fst)
        = [Provider.gemini, Provider.openrouter]) ∧
    (env.geminiKey ≠ none → env.openrouterKey ≠ none →
      env.geminiCall (chatPromptGemini message (chatContext message doc)) = none →
      ((generateChatResponse env message doc).2.map Prod.fst)
        = [Provider.gemini, Provider.openrouter]) := by
  refine ⟨?_, ?_, ?_⟩
  · intro hg
    unfold generateSummary generateChatResponse
    rw [hg]
    exact ⟨rfl, rfl, rfl, rfl⟩
  · intro hg ho hcall
    cases hk : env.geminiKey with
    | none => exact absurd hk hg
    | some k =>
      cases hok : env.openrouterKey with
      | none => exact absurd hok ho
      | some k2 =>
        cases hoc : env.openrouterCall (openrouterSummaryPrompt text) with
        | none => simp [generateSummary, hk, hcall, hok, hoc]
        | some s => simp [generateSummary, hk, hcall, hok, hoc]
  · intro hg ho hcall
    cases hk : env.geminiKey with
    | none => exact absurd hk hg
    | some k =>
      cases hok : env.openrouterKey with
      | none => exact absurd hok ho
      | some k2 =>
        cases hoc : env.openrouterCall
            (chatPromptOpenrouter message (chatContext message doc)) with
        | none => simp [generateChatResponse, hk, hcall, hok, hoc]
        | some s => simp [generateChatResponse, hk, hcall, hok, hoc]

/-- Witness for C1 at a concrete credential-free environment. -/
theorem claim_C1_witness :
    (generateSummary envNone (("x").data)).2 = [] ∧
    (generateSummary envNone (("x").data)).1
      = generateBasicSummary envNone.extractEntities (("x").data) ∧
    (generateChatResponse envNone (("q").data) (("x").data)).2 = [] ∧
    (generateChatResponse envNone (("q").data) (("x").data)).1 =
      chatNoKeyFallback (("q").data) (chatContext (("q").data) (("x").data)) :=
  (claim_C1 envNone (("x").data) (("q").data) (("x").data)).1 rfl

/-- Counterexample to C1 as stated: with the Gemini credential absent and a
configured OpenRouter provider that would answer, neither path attempts OpenRouter —
both return their local fallback at once. -/
theorem claim_C1_counterexample :
    (envOnlyOpenrouter (("OPENROUTER RESPONSE").data)).geminiKey = none ∧
    (envOnlyOpenrouter (("OPENROUTER RESPONSE").data)).openrouterKey ≠ none ∧
    (envOnlyOpenrouter (("OPENROUTER RESPONSE").data)).openrouterCall
      (openrouterSummaryPrompt (("Contract text.").data))
      = some (("OPENROUTER RESPONSE").data) ∧
    (generateSummary (envOnlyOpenrouter (("OPENROUTER RESPONSE").data))
      (("Contract text.").data)).2 = [] ∧
    (generateSummary (envOnlyOpenrouter (("OPENROUTER RESPONSE").data))
      (("Contract text.").data)).1
      = generateBasicSummary noEntities (("Contract text.").data) ∧
    (generateSummary (envOnlyOpenrouter (("OPENROUTER RESPONSE").data))
      (("Contract text.").data)).1 ≠ (("OPENROUTER RESPONSE").data) ∧
    (generateChatResponse (envOnlyOpenrouter (("OPENROUTER RESPONSE").data))
      (("q").data) (("Contract text.").data)).2 = [] ∧
    (generateChatResponse (envOnlyOpenrouter (("OPENROUTER RESPONSE").data))
      (("q").data) (("Contract text.").data)).1
      ≠ (("OPENROUTER RESPONSE").data) := by
  refine ⟨rfl, by decide, rfl, rfl, rfl, by decide, rfl, by decide⟩

/-! ### C6: non-empty result and the degraded single-passage fallback -/

/-- Unfolding equation for `findRelevantPassages`. -/
theorem findRelevantPassages_eq (q doc : Str) (k : ℕ) :
    findRelevantPassages q doc k =
      if sentencesFiltered doc = [] then [doc.take 1000]
      else
        ((((sentencesFiltered doc).map
          (fun s => (trimChars s,
            simKey (createSimpleEmbedding q) (createSimpleEmbedding s)))).mergeSort
              (fun x y => simLE y.2 x.2)).take k).map (fun p => p.1) := rfl

/-- C6 as amended: for a non-empty document and `k ≥ 1` the selector returns at
least one passage, and whenever no passage survives the filter it returns exactly
the single pseudo-passage holding the first 1000 characters of the document. -/
theorem claim_C6 (q doc : Str) (k : ℕ) (_hdoc : doc ≠ []) (hk : 1 ≤ k) :
    1 ≤ (findRelevantPassages q doc k).length ∧
    (sentencesFiltered doc = [] →
      findRelevantPassages q doc k = [doc.take 1000]) := by
  rw [findRelevantPassages_eq]
  by_cases h : sentencesFiltered doc = []
  · rw [if_pos h]
    exact ⟨by simp, fun _ => rfl⟩
  · rw [if_neg h]
    constructor
    · have hpos : 0 < (sentencesFiltered doc).length := List.length_pos.mpr h
      simp only [List.length_map, List.length_take, List.length_mergeSort]
      omega
    · intro hc
      exact absurd hc h

/-- Witness for C6 on a one-sentence document with the default `topK`. -/
theorem claim_C6_witness :
    1 ≤ (findRelevantPassages (("q").data) longSentence 5).length ∧
    (sentencesFiltered longSentence = [] →
      findRelevantPassages (("q").data) longSentence 5 = [longSentence.take 1000]) :=
  claim_C6 (("q").data) longSentence 5 (by decide) (by decide)

set_option maxRecDepth 100000

unseal List.merge List.mergeSort in
/-- Counterexample to C6 as stated: with `k = 0` and a non-empty document whose only
sentence qualifies, the selector returns the empty sequence. -/
theorem claim_C6_counterexample :
    longSentence ≠ [] ∧
    sentencesFiltered longSentence ≠ [] ∧
    findRelevantPassages (("What payment is due?").data) longSentence 0 = [] := by
  refine ⟨by decide, by decide, by decide⟩

/-! ### C7: Scenario B ranks the payment sentence first -/

unseal List.merge List.mergeSort in
/-- C7: on Scenario B's document and query, the top-ranked passage returned is the
sentence containing the substring `$500`. -/
theorem claim_C7 :
    (findRelevantPassages (("What payment is due?").data) scenarioBDoc 5).head?
      = some (("Payment of $500 is due January 1, 2024").data) ∧
    containsSub (("$500").data)
      (("Payment of $500 is due January 1, 2024").data) = true := by
  refine ⟨by decide, by decide⟩

/-! ### C4: bounds of the cosine similarity -/

theorem dotP_cons (x y : ℕ) (a b : List ℕ) :
    dotP (x :: a) (y :: b) = x * y + dotP a b := by
  simp [dotP]

theorem sumSq_cons (x : ℕ) (a : List ℕ) : sumSq (x :: a) = x * x + sumSq a :=
  dotP_cons x x a a

/-- Cauchy–Schwarz for the dot product of vectors of naturals. -/
theorem dotP_sq_le : ∀ a b : List ℕ, dotP a b ^ 2 ≤ sumSq a * sumSq b := by
  intro a
  induction a with
  | nil => intro b; simp [dotP, sumSq]
  | cons x a ih =>
    intro b
    cases b with
    | nil => simp [dotP, sumSq]
    | cons y b =>
      have h := ih b
      rw [dotP_cons, sumSq_cons, sumSq_cons]
      zify at h ⊢
      have hd : (0 : ℤ) ≤ (dotP a b : ℤ) := by positivity
      have hprod : (0 : ℤ) ≤
          ((x : ℤ) * x * ((y : ℤ) * y)) * ((sumSq a : ℤ) * sumSq b - (dotP a b : ℤ) ^ 2) :=
        mul_nonneg (by positivity) (by linarith)
      have key2 : (2 * ((x : ℤ) * y) * (dotP a b : ℤ)) ^ 2 ≤
          ((x : ℤ) * x * (sumSq b : ℤ) + (sumSq a : ℤ) * ((y : ℤ) * y)) ^ 2 := by
        nlinarith [sq_nonneg ((x : ℤ) * x * (sumSq b : ℤ) - (sumSq a : ℤ) * ((y : ℤ) * y)),
          hprod]
      have key : 2 * ((x : ℤ) * y) * (dotP a b : ℤ) ≤
          (x : ℤ) * x * (sumSq b : ℤ) + (sumSq a : ℤ) * ((y : ℤ) * y) := by
        have h1 : (0 : ℤ) ≤ 2 * ((x : ℤ) * y) * (dotP a b : ℤ) := by positivity
        have h2 : (0 : ℤ) ≤ (x : ℤ) * x * (sumSq b : ℤ) + (sumSq a : ℤ) * ((y : ℤ) * y) := by
          positivity
        exact (pow_le_pow_iff_left₀ h1 h2 two_ne_zero).mp key2
      nlinarith [key, h]

theorem sumSq_eq_zero {a : List ℕ} (h : sumSq a = 0) : ∀ x ∈ a, x = 0 := by
  induction a with
  | nil => simp
  | cons y a ih =>
    rw [sumSq_cons] at h
    have hy : y * y = 0 := by omega
    have ha : sumSq a = 0 := by omega
    intro x hx
    rcases List.mem_cons.mp hx with hxy | hxa
    · rw [hxy]; exact mul_self_eq_zero.mp hy
    · exact ih ha x hxa

theorem cosineSimilarity_nonneg (a b : List ℕ) : 0 ≤ cosineSimilarity a b := by
  unfold cosineSimilarity
  split
  · exact le_refl 0
  · positivity

theorem cosineSimilarity_le_one (a b : List ℕ) : cosineSimilarity a b ≤ 1 := by
  unfold cosineSimilarity
  split
  · norm_num
  · rename_i h
    push_neg at h
    obtain ⟨hA, hB⟩ := h
    have hA' : (0 : ℝ) < (sumSq a : ℝ) := by
      exact_mod_cast Nat.pos_of_ne_zero hA
    have hB' : (0 : ℝ) < (sumSq b : ℝ) := by
      exact_mod_cast Nat.pos_of_ne_zero hB
    rw [div_le_one (by positivity)]
    rw [← Real.sqrt_mul (le_of_lt hA')]
    rw [show ((sumSq a : ℝ) * (sumSq b : ℝ)) = ((sumSq a * sumSq b : ℕ) : ℝ) by
      push_cast; ring]
    refine (Real.le_sqrt (by positivity) (by positivity)).mpr ?_
    exact_mod_cast dotP_sq_le a b

theorem cosineSimilarity_self {a : List ℕ} (h : sumSq a ≠ 0) :
    cosineSimilarity a a = 1 := by
  unfold cosineSimilarity
  rw [if_neg (by tauto)]
  have hA : (0 : ℝ) < (sumSq a : ℝ) := by
    exact_mod_cast Nat.pos_of_ne_zero h
  rw [Real.mul_self_sqrt (le_of_lt hA)]
  have hdot : dotP a a = sumSq a := rfl
  rw [hdot]
  exact div_self (ne_of_gt hA)

theorem sumSq_zero_vector : sumSq (List.replicate 100 0) = 0 := by decide

/-- C4: for 100-component vectors of non-negative numbers the cosine similarity lies
in `[0, 1]`; it is 1 on any non-zero vector against itself; and the zero-magnitude
guard makes the similarity of the zero vector with anything equal 0. -/
theorem claim_C4 (a b : List ℕ) (ha : a.length = 100) (_hb : b.length = 100) :
    (0 ≤ cosineSimilarity a b ∧ cosineSimilarity a b ≤ 1) ∧
    (a ≠ List.replicate 100 0 → cosineSimilarity a a = 1) ∧
    cosineSimilarity (List.replicate 100 0) b = 0 := by
  refine ⟨⟨cosineSimilarity_nonneg a b, cosineSimilarity_le_one a b⟩, ?_, ?_⟩
  · intro hne
    apply cosineSimilarity_self
    intro h0
    exact hne (List.eq_replicate_iff.mpr ⟨ha, sumSq_eq_zero h0⟩)
  · unfold cosineSimilarity
    rw [if_pos (Or.inl sumSq_zero_vector)]

/-- Witness for C4 at the all-ones vector. -/
theorem claim_C4_witness :
    (0 ≤ cosineSimilarity (List.replicate 100 1) (List.replicate 100 1) ∧
      cosineSimilarity (List.replicate 100 1) (List.replicate 100 1) ≤ 1) ∧
    (List.replicate 100 1 ≠ List.replicate 100 0 →
      cosineSimilarity (List.replicate 100 1) (List.replicate 100 1) = 1) ∧
    cosineSimilarity (List.replicate 100 0) (List.replicate 100 1) = 0 :=
  claim_C4 (List.replicate 100 1) (List.replicate 100 1) (by simp) (by simp)

/-! ### C2: prompt size budgets -/

theorem splitField_no_sep (p : Char → Bool) :
    ∀ (l : Str) (acc : Str), (∀ c ∈ l, p c = false) →
      splitField p acc l = [acc.reverse ++ l] := by
  intro l
  induction l with
  | nil => intro acc _; simp [splitField]
  | cons c cs ih =>
    intro acc h
    have hc : p c = false := h c (List.mem_cons_self c cs)
    rw [splitField, hc]
    simp only [Bool.false_eq_true, if_false]
    rw [ih (c :: acc) (fun x hx => h x (List.mem_cons_of_mem c hx))]
    simp

theorem jsSplit_no_sep (p : Char → Bool) (l : Str) (h : ∀ c ∈ l, p c = false) :
    jsSplit p l = [l] := by
  unfold jsSplit
  rw [splitField_no_sep p l [] h]
  rfl

theorem dropWhile_no (p : Char → Bool) :
    ∀ l : Str, (∀ c ∈ l, p c = false) → l.dropWhile p = l
  | [], _ => rfl
  | c :: cs, h => by
    rw [List.dropWhile_cons, h c (List.mem_cons_self c cs)]
    simp

theorem trimChars_no_ws (l : Str) (h : ∀ c ∈ l, isWS c = false) : trimChars l = l := by
  unfold trimChars
  rw [dropWhile_no isWS l h,
    dropWhile_no isWS l.reverse (fun c hc => h c (List.mem_reverse.mp hc)),
    List.reverse_reverse]

theorem mergeSort_singleton {α : Type} (a : α) (le : α → α → Bool) :
    List.mergeSort [a] le = [a] :=
  List.perm_singleton.mp (List.mergeSort_perm [a] le)

theorem replicate_no_term (n : ℕ) :
    ∀ c ∈ List.replicate n 'a', isTermChar c = false := by
  intro c hc
  rw [List.eq_of_mem_replicate hc]
  decide

theorem replicate_no_ws (n : ℕ) :
    ∀ c ∈ List.replicate n 'a', isWS c = false := by
  intro c hc
  rw [List.eq_of_mem_replicate hc]
  decide

theorem intercalate_singleton {α : Type} (sep : List α) (x : List α) :
    List.intercalate sep [x] = x := by
  simp [List.intercalate]

theorem sentencesFiltered_replicate :
    sentencesFiltered (List.replicate 6001 'a') = [List.replicate 6001 'a'] := by
  unfold sentencesFiltered
  rw [jsSplit_no_sep isTermChar _ (replicate_no_term 6001)]
  have hcond : decide (30 < (trimChars (List.replicate 6001 'a')).length) = true := by
    rw [trimChars_no_ws _ (replicate_no_ws 6001), List.length_replicate]
    rfl
  rw [List.filter_cons, hcond]
  rfl

theorem findRelevantPassages_replicate (q : Str) :
    findRelevantPassages q (List.replicate 6001 'a') 5 = [List.replicate 6001 'a'] := by
  rw [findRelevantPassages_eq, sentencesFiltered_replicate,
    if_neg (List.cons_ne_nil _ _), List.map_cons, List.map_nil, mergeSort_singleton,
    List.take_of_length_le (by rw [List.length_cons, List.length_nil]; omega),
    List.map_cons, List.map_nil, trimChars_no_ws _ (replicate_no_ws 6001)]

theorem chatContext_replicate (q : Str) :
    chatContext q (List.replicate 6001 'a') = List.replicate 6001 'a' := by
  unfold chatContext
  rw [findRelevantPassages_replicate, intercalate_singleton]

/-- C2 as amended: on the summarization path every remote prompt embeds exactly
`text.substring(0, 6000)` — at most 6000 characters of document-derived content —
while on the chat path every remote prompt embeds the assembled passage context with
no character budget. -/
theorem claim_C2 (env : Env) (text message doc : Str) :
    (∀ p ∈ (generateSummary env text).2,
      p.2 = geminiSummaryPrompt text ∨ p.2 = openrouterSummaryPrompt text) ∧
    geminiSummaryPrompt text = geminiSummaryInstructions ++ text.take 6000 ∧
    (text.take 6000).length ≤ 6000 ∧
    (∀ p ∈ (generateChatResponse env message doc).2,
      p.2 = chatPromptGemini message (chatContext message doc) ∨
      p.2 = chatPromptOpenrouter message (chatContext message doc)) := by
  refine ⟨?_, rfl, ?_, ?_⟩
  · intro p hp
    unfold generateSummary at hp
    cases hk : env.geminiKey with
    | none => rw [hk] at hp; simp at hp
    | some k =>
      rw [hk] at hp
      cases hc : env.geminiCall (geminiSummaryPrompt text) with
      | some s => rw [hc] at hp; simp at hp; rw [hp]; left; rfl
      | none =>
        rw [hc] at hp
        cases hok : env.openrouterKey with
        | none => rw [hok] at hp; simp at hp; rw [hp]; left; rfl
        | some k2 =>
          rw [hok] at hp
          cases hoc : env.openrouterCall (openrouterSummaryPrompt text) with
          | some s =>
            rw [hoc] at hp
            simp at hp
            rcases hp with h | h
            · rw [h]; left; rfl
            · rw [h]; right; rfl
          | none =>
            rw [hoc] at hp
            simp at hp
            rcases hp with h | h
            · rw [h]; left; rfl
            · rw [h]; right; rfl
  · rw [List.length_take]
    omega
  · intro p hp
    unfold generateChatResponse at hp
    cases hk : env.geminiKey with
    | none => rw [hk] at hp; simp at hp
    | some k =>
      rw [hk] at hp
      cases hc : env.geminiCall (chatPromptGemini message (chatContext message doc)) with
      | some s => rw [hc] at hp; simp at hp; rw [hp]; left; rfl
      | none =>
        rw [hc] at hp
        cases hok : env.openrouterKey with
        | none => rw [hok] at hp; simp at hp; rw [hp]; left; rfl
        | some k2 =>
          rw [hok] at hp
          cases hoc : env.openrouterCall
              (chatPromptOpenrouter message (chatContext message doc)) with
          | some s =>
            rw [hoc] at hp
            simp at hp
            rcases hp with h | h
            · rw [h]; left; rfl
            · rw [h]; right; rfl
          | none =>
            rw [hoc] at hp
            simp at hp
            rcases hp with h | h
            · rw [h]; left; rfl
            · rw [h]; right; rfl

/-- Witness for C2: the summarization prompt's document part stays within budget. -/
theorem claim_C2_witness :
    ((("abc").data).take 6000).length ≤ 6000 :=
  (claim_C2 envNone (("abc").data) (("q").data) (("d").data)).2.2.1

/-- Counterexample to C2 as stated: on the chat path, a 6001-character document with
no sentence boundary yields a 6001-character context that is embedded verbatim in
the prompt sent to Gemini — no 6000-character truncation happens. -/
theorem claim_C2_counterexample :
    (generateChatResponse (envGeminiOk (("ok").data)) (("q").data)
        (List.replicate 6001 'a')).2
      = [(Provider.gemini, chatPromptGemini (("q").data)
          (chatContext (("q").data) (List.replicate 6001 'a')))] ∧
    chatContext (("q").data) (List.replicate 6001 'a') = List.replicate 6001 'a' ∧
    (chatContext (("q").data) (List.replicate 6001 'a')).length = 6001 := by
  refine ⟨rfl, chatContext_replicate (("q").data), ?_⟩
  rw [chatContext_replicate (("q").data)]
  exact List.length_replicate 6001 'a'

/-! ### C3: the retrieval result is a ranked selection of trimmed sentences -/

theorem tokOut_all_nonword :
    ∀ l : Str, (∀ c ∈ l, isWordChar c = false) → tokOut l = [] := by
  intro l
  induction l with
  | nil => intro _; rfl
  | cons c cs ih =>
    intro h
    have hc : isWordChar c = false := h c (List.mem_cons_self c cs)
    simp only [tokOut, hc, Bool.false_eq_true, if_false]
    exact ih (fun x hx => h x (List.mem_cons_of_mem c hx))

theorem tok_append_nonword (ws : Str) (hws : ∀ c ∈ ws, isWordChar c = false) :
    ∀ l : Str, tokOut (l ++ ws) = tokOut l ∧ (∀ acc, tokIn acc (l ++ ws) = tokIn acc l) := by
  intro l
  induction l with
  | nil =>
    refine ⟨by simpa using tokOut_all_nonword ws hws, ?_⟩
    intro acc
    cases ws with
    | nil => rfl
    | cons c cs =>
      have hc : isWordChar c = false := hws c (List.mem_cons_self c cs)
      simp only [List.nil_append, tokIn, hc, Bool.false_eq_true, if_false]
      rw [tokOut_all_nonword cs (fun x hx => hws x (List.mem_cons_of_mem c hx))]
  | cons c l ih =>
    constructor
    · show tokOut (c :: (l ++ ws)) = tokOut (c :: l)
      by_cases hc : isWordChar c = true
      · simp only [tokOut, hc, if_true]
        exact ih.2 [c]
      · have hc' : isWordChar c = false := by
          revert hc; cases isWordChar c <;> simp
        simp only [tokOut, hc', Bool.false_eq_true, if_false]
        exact ih.1
    · intro acc
      show tokIn acc (c :: (l ++ ws)) = tokIn acc (c :: l)
      by_cases hc : isWordChar c = true
      · simp only [tokIn, hc, if_true]
        exact ih.2 (c :: acc)
      · have hc' : isWordChar c = false := by
          revert hc; cases isWordChar c <;> simp
        simp only [tokIn, hc', Bool.false_eq_true, if_false]
        rw [ih.1]

theorem tokOut_prepend_nonword :
    ∀ ws l : Str, (∀ c ∈ ws, isWordChar c = false) → tokOut (ws ++ l) = tokOut l := by
  intro ws
  induction ws with
  | nil => intro l _; rfl
  | cons c cs ih =>
    intro l h
    have hc : isWordChar c = false := h c (List.mem_cons_self c cs)
    simp only [List.cons_append, tokOut, hc, Bool.false_eq_true, if_false]
    exact ih l (fun x hx => h x (List.mem_cons_of_mem c hx))

/-- A string is its leading whitespace, its trim, and its trailing whitespace. -/
theorem trim_decomp (s : Str) :
    ∃ pre suf : Str, s = pre ++ (trimChars s ++ suf) ∧
      (∀ c ∈ pre, isWS c = true) ∧ ∀ c ∈ suf, isWS c = true := by
  refine ⟨s.takeWhile isWS, ((s.dropWhile isWS).reverse.takeWhile isWS).reverse,
    ?_, ?_, ?_⟩
  · conv_lhs => rw [← List.takeWhile_append_dropWhile (p := isWS) (l := s)]
    congr 1
    unfold trimChars
    conv_lhs => rw [← List.reverse_reverse (s.dropWhile isWS),
      ← List.takeWhile_append_dropWhile (p := isWS) (l := (s.dropWhile isWS).reverse)]
    rw [List.reverse_append]
  · intro c hc
    exact List.mem_takeWhile_imp hc
  · intro c hc
    exact List.mem_takeWhile_imp (List.mem_reverse.mp hc)

theorem isWS_cases {c : Char} (h : isWS c = true) :
    c = ' ' ∨ c = '\t' ∨ c = '\r' ∨ c = '\n' := by
  unfold isWS at h
  simp [Char.isWhitespace] at h
  tauto

theorem isWS_toLower {c : Char} (h : isWS c = true) : Char.toLower c = c := by
  rcases isWS_cases h with h | h | h | h <;> subst h <;> decide

theorem isWS_not_word {c : Char} (h : isWS c = true) : isWordChar c = false := by
  rcases isWS_cases h with h | h | h | h <;> subst h <;> decide

/-- Trimming does not change the embedding: the word tokens of a string are those of
its trim, since only whitespace is removed at the ends. -/
theorem emb_trim (s : Str) :
    createSimpleEmbedding (trimChars s) = createSimpleEmbedding s := by
  obtain ⟨pre, suf, hdec, hpre, hsuf⟩ := trim_decomp s
  unfold createSimpleEmbedding
  suffices h : tokenize (jsToLower (trimChars s)) = tokenize (jsToLower s) by rw [h]
  have hmap : ∀ ws : Str, (∀ c ∈ ws, isWS c = true) →
      ∀ c ∈ ws.map Char.toLower, isWordChar c = false := by
    intro ws hws c hc
    rw [List.mem_map] at hc
    obtain ⟨c₀, hc₀, rfl⟩ := hc
    rw [isWS_toLower (hws c₀ hc₀)]
    exact isWS_not_word (hws c₀ hc₀)
  conv_rhs => rw [hdec]
  unfold jsToLower tokenize
  rw [List.map_append, List.map_append,
    tokOut_prepend_nonword (pre.map Char.toLower) _ (hmap pre hpre)]
  exact ((tok_append_nonword (suf.map Char.toLower) (hmap suf hsuf) _).1).symm

/-- Unfolded characterization of the key comparison. -/
theorem simLE_eq_true_iff (d₁ S₁ d₂ S₂ : ℕ) :
    simLE (d₁, S₁) (d₂, S₂) = true ↔
      (d₁ = 0 ∨ S₁ = 0) ∨
      ((d₂ ≠ 0 ∧ S₂ ≠ 0) ∧ d₁ ^ 2 * S₂ ≤ d₂ ^ 2 * S₁) := by
  unfold simLE
  by_cases h1 : d₁ = 0 ∨ S₁ = 0
  · simp [h1]
  · by_cases h2 : d₂ = 0 ∨ S₂ = 0
    · simp [h1, h2]
      tauto
    · simp [h1, h2]
      tauto

theorem simLE_trans (k₁ k₂ k₃ : ℕ × ℕ) (h12 : simLE k₁ k₂ = true)
    (h23 : simLE k₂ k₃ = true) : simLE k₁ k₃ = true := by
  obtain ⟨d₁, S₁⟩ := k₁
  obtain ⟨d₂, S₂⟩ := k₂
  obtain ⟨d₃, S₃⟩ := k₃
  rw [simLE_eq_true_iff] at h12 h23 ⊢
  rcases h12 with h1 | ⟨⟨hd2, hS2⟩, hle12⟩
  · exact Or.inl h1
  rcases h23 with h2 | ⟨⟨hd3, hS3⟩, hle23⟩
  · exact absurd h2 (by push_neg; exact ⟨hd2, hS2⟩)
  by_cases h1 : d₁ = 0 ∨ S₁ = 0
  · exact Or.inl h1
  refine Or.inr ⟨⟨hd3, hS3⟩, ?_⟩
  have hS2' : 0 < S₂ := Nat.pos_of_ne_zero hS2
  have hmain : S₂ * (d₁ ^ 2 * S₃) ≤ S₂ * (d₃ ^ 2 * S₁) := by
    calc S₂ * (d₁ ^ 2 * S₃) = d₁ ^ 2 * S₂ * S₃ := by ring
    _ ≤ d₂ ^ 2 * S₁ * S₃ := Nat.mul_le_mul_right _ hle12
    _ = d₂ ^ 2 * S₃ * S₁ := by ring
    _ ≤ d₃ ^ 2 * S₂ * S₁ := Nat.mul_le_mul_right _ hle23
    _ = S₂ * (d₃ ^ 2 * S₁) := by ring
  exact Nat.le_of_mul_le_mul_left hmain hS2'

theorem simLE_total (k₁ k₂ : ℕ × ℕ) : (simLE k₁ k₂ || simLE k₂ k₁) = true := by
  obtain ⟨d₁, S₁⟩ := k₁
  obtain ⟨d₂, S₂⟩ := k₂
  rcases Nat.le_total (d₁ ^ 2 * S₂) (d₂ ^ 2 * S₁) with h | h <;>
    · rw [Bool.or_eq_true, simLE_eq_true_iff, simLE_eq_true_iff]
      by_cases h1 : d₁ = 0 ∨ S₁ = 0
      · tauto
      · by_cases h2 : d₂ = 0 ∨ S₂ = 0
        · tauto
        · push_neg at h1 h2
          tauto

theorem dotP_zero_right {a b : List ℕ} (h : sumSq b = 0) : dotP a b = 0 := by
  have hle := dotP_sq_le a b
  rw [h, Nat.mul_zero] at hle
  exact pow_eq_zero_iff two_ne_zero |>.mp (Nat.le_zero.mp hle)

theorem dotP_zero_left {a b : List ℕ} (h : sumSq a = 0) : dotP a b = 0 := by
  have hle := dotP_sq_le a b
  rw [h, Nat.zero_mul] at hle
  exact pow_eq_zero_iff two_ne_zero |>.mp (Nat.le_zero.mp hle)

theorem cos_zero_of_dot_zero {a b : List ℕ} (h : dotP a b = 0) :
    cosineSimilarity a b = 0 := by
  unfold cosineSimilarity
  split
  · rfl
  · rw [h]
    simp

theorem cos_pos {a b : List ℕ} (hd : dotP a b ≠ 0) (hb : sumSq b ≠ 0) :
    0 < cosineSimilarity a b := by
  have ha : sumSq a ≠ 0 := fun h => hd (dotP_zero_left h)
  unfold cosineSimilarity
  rw [if_neg (by tauto)]
  have h1 : (0 : ℝ) < (dotP a b : ℝ) := by exact_mod_cast Nat.pos_of_ne_zero hd
  have h2 : (0 : ℝ) < Real.sqrt (sumSq a) :=
    Real.sqrt_pos.mpr (by exact_mod_cast Nat.pos_of_ne_zero ha)
  have h3 : (0 : ℝ) < Real.sqrt (sumSq b) :=
    Real.sqrt_pos.mpr (by exact_mod_cast Nat.pos_of_ne_zero hb)
  exact div_pos h1 (mul_pos h2 h3)

/-- The key comparison is exactly the comparison of real cosine similarities. -/
theorem cosineSimilarity_le_iff_simLE (q b₁ b₂ : List ℕ) :
    cosineSimilarity q b₁ ≤ cosineSimilarity q b₂ ↔
      simLE (simKey q b₁) (simKey q b₂) = true := by
  unfold simKey
  rw [simLE_eq_true_iff]
  by_cases h1 : dotP q b₁ = 0 ∨ sumSq b₁ = 0
  · have hc1 : cosineSimilarity q b₁ = 0 := by
      rcases h1 with h | h
      · exact cos_zero_of_dot_zero h
      · exact cos_zero_of_dot_zero (dotP_zero_right h)
    constructor
    · intro _
      exact Or.inl h1
    · intro _
      rw [hc1]
      exact cosineSimilarity_nonneg q b₂
  · push_neg at h1
    obtain ⟨hd1, hS1⟩ := h1
    have hcos1 : 0 < cosineSimilarity q b₁ := cos_pos hd1 hS1
    by_cases h2 : dotP q b₂ = 0 ∨ sumSq b₂ = 0
    · have hc2 : cosineSimilarity q b₂ = 0 := by
        rcases h2 with h | h
        · exact cos_zero_of_dot_zero h
        · exact cos_zero_of_dot_zero (dotP_zero_right h)
      constructor
      · intro hle
        rw [hc2] at hle
        exact absurd hle (not_le.mpr hcos1)
      · intro hor
        rcases hor with h | ⟨⟨hd2, hS2⟩, _⟩
        · exact absurd h (by push_neg; exact ⟨hd1, hS1⟩)
        · exact absurd h2 (by push_neg; exact ⟨hd2, hS2⟩)
    · push_neg at h2
      obtain ⟨hd2, hS2⟩ := h2
      have hq : sumSq q ≠ 0 := fun h => hd1 (dotP_zero_left h)
      have key : cosineSimilarity q b₁ ≤ cosineSimilarity q b₂ ↔
          dotP q b₁ ^ 2 * sumSq b₂ ≤ dotP q b₂ ^ 2 * sumSq b₁ := by
        unfold cosineSimilarity
        rw [if_neg (by tauto), if_neg (by tauto)]
        have hA : (0 : ℝ) < (sumSq q : ℝ) := by exact_mod_cast Nat.pos_of_ne_zero hq
        have hB1 : (0 : ℝ) < (sumSq b₁ : ℝ) := by exact_mod_cast Nat.pos_of_ne_zero hS1
        have hB2 : (0 : ℝ) < (sumSq b₂ : ℝ) := by exact_mod_cast Nat.pos_of_ne_zero hS2
        have hsA := Real.sqrt_pos.mpr hA
        have hsB1 := Real.sqrt_pos.mpr hB1
        have hsB2 := Real.sqrt_pos.mpr hB2
        rw [div_le_div_iff₀ (mul_pos hsA hsB1) (mul_pos hsA hsB2)]
        rw [show (dotP q b₁ : ℝ) * (Real.sqrt (sumSq q) * Real.sqrt (sumSq b₂))
              = Real.sqrt (sumSq q) * ((dotP q b₁ : ℝ) * Real.sqrt (sumSq b₂)) by ring,
          show (dotP q b₂ : ℝ) * (Real.sqrt (sumSq q) * Real.sqrt (sumSq b₁))
              = Real.sqrt (sumSq q) * ((dotP q b₂ : ℝ) * Real.sqrt (sumSq b₁)) by ring,
          mul_le_mul_left hsA]
        rw [← pow_le_pow_iff_left₀ (by positivity) (by positivity) two_ne_zero]
        rw [mul_pow, mul_pow, Real.sq_sqrt hB1.le, Real.sq_sqrt hB2.le]
        constructor
        · intro h
          exact_mod_cast h
        · intro h
          exact_mod_cast h
      rw [key]
      constructor
      · intro h
        exact Or.inr ⟨⟨hd2, hS2⟩, h⟩
      · intro hor
        rcases hor with h | ⟨_, h⟩
        · exact absurd h (by push_neg; exact ⟨hd1, hS1⟩)
        · exact h

/-- C3 as amended: whenever at least one sentence survives the length filter,
`findRelevantPassages q doc k` returns at most `k` items, every item is the trim of a
fragment of the sentence split of `doc`, and the items are ordered by non-increasing
cosine similarity of their embeddings to the embedding of `q`.  (In the degraded
zero-passage case the function instead returns the single 1000-character prefix,
which is not in general a fragment of the split — see the counterexample.) -/
theorem claim_C3 (q doc : Str) (k : ℕ) (h : sentencesFiltered doc ≠ []) :
    (findRelevantPassages q doc k).length ≤ k ∧
    (∀ s ∈ findRelevantPassages q doc k,
      ∃ t ∈ jsSplit isTermChar doc, s = trimChars t) ∧
    (findRelevantPassages q doc k).Pairwise
      (fun s₁ s₂ =>
        cosineSimilarity (createSimpleEmbedding q) (createSimpleEmbedding s₂) ≤
          cosineSimilarity (createSimpleEmbedding q) (createSimpleEmbedding s₁)) := by
  rw [findRelevantPassages_eq, if_neg h]
  refine ⟨?_, ?_, ?_⟩
  · simp only [List.length_map, List.length_take, List.length_mergeSort]
    omega
  · intro s hs
    rw [List.mem_map] at hs
    obtain ⟨p, hp, hps⟩ := hs
    have hp1 : p ∈ ((sentencesFiltered doc).map
        (fun s => (trimChars s,
          simKey (createSimpleEmbedding q) (createSimpleEmbedding s)))).mergeSort
            (fun x y => simLE y.2 x.2) := List.take_subset _ _ hp
    rw [List.mem_mergeSort, List.mem_map] at hp1
    obtain ⟨t, ht, hpt⟩ := hp1
    refine ⟨t, List.mem_of_mem_filter ht, ?_⟩
    rw [← hps, ← hpt]
  · have hsorted := @List.sorted_mergeSort (Str × (ℕ × ℕ))
      (fun x y => simLE y.2 x.2)
      (fun a b c hab hbc => simLE_trans c.2 b.2 a.2 hbc hab)
      (fun a b => by
        have := simLE_total b.2 a.2
        rcases Bool.or_eq_true_iff.mp this with h | h <;> simp [h])
      ((sentencesFiltered doc).map
        (fun s => (trimChars s,
          simKey (createSimpleEmbedding q) (createSimpleEmbedding s))))
    have hpair := hsorted.sublist (List.take_sublist k _)
    rw [List.pairwise_map]
    have hinv : ∀ p ∈ (sentencesFiltered doc).map
        (fun s => (trimChars s,
          simKey (createSimpleEmbedding q) (createSimpleEmbedding s))),
        p.2 = simKey (createSimpleEmbedding q) (createSimpleEmbedding p.1) := by
      intro p hp
      rw [List.mem_map] at hp
      obtain ⟨t, _, hpt⟩ := hp
      rw [← hpt]
      simp only
      rw [emb_trim]
    refine List.Pairwise.imp_of_mem ?_ hpair
    intro x y hx hy hxy
    have hx' := List.mem_mergeSort.mp (List.take_subset _ _ hx)
    have hy' := List.mem_mergeSort.mp (List.take_subset _ _ hy)
    rw [cosineSimilarity_le_iff_simLE]
    rw [← hinv x hx', ← hinv y hy']
    exact hxy

/-- Witness for C3 on Scenario B's document. -/
theorem claim_C3_witness :
    (findRelevantPassages (("What payment is due?").data) scenarioBDoc 5).length ≤ 5 ∧
    (∀ s ∈ findRelevantPassages (("What payment is due?").data) scenarioBDoc 5,
      ∃ t ∈ jsSplit isTermChar scenarioBDoc, s = trimChars t) ∧
    (findRelevantPassages (("What payment is due?").data) scenarioBDoc 5).Pairwise
      (fun s₁ s₂ =>
        cosineSimilarity (createSimpleEmbedding (("What payment is due?").data))
            (createSimpleEmbedding s₂) ≤
          cosineSimilarity (createSimpleEmbedding (("What payment is due?").data))
            (createSimpleEmbedding s₁)) :=
  claim_C3 (("What payment is due?").data) scenarioBDoc 5 (by decide)

/-- Counterexample to C3 as stated: for a document with no qualifying sentence the
fallback result has one item even though `k = 0`, and that item (the raw 1000-char
prefix) is not the trim of any fragment of the sentence split. -/
theorem claim_C3_counterexample :
    findRelevantPassages (("x").data) (("hi.").data) 0 = [(("hi.").data)] ∧
    1 ≤ (findRelevantPassages (("x").data) (("hi.").data) 0).length ∧
    (∀ t ∈ jsSplit isTermChar (("hi.").data), (("hi.").data) ≠ trimChars t) := by
  refine ⟨by decide, by decide, by decide⟩

end LexChat
